import Mathlib

/-!
Verification of the `trava` command-line Travis CI client against its
natural-language specification.  The development shallowly embeds the three
source modules (`lib/colors.py`, `lib/cli.py`, `lib/pager.py`):

* pure Python functions become Lean functions over `List Nat` (byte strings),
  `List Char` / `String` (text) and `ℚ` (exact embedding of the Python float
  arithmetic — every numeric value reachable from the claims is exactly
  representable);
* Python exceptions become `Except String` results;
* the pager context manager becomes an explicit control-flow function over an
  abstract body outcome.

Recursive byte/char processing is defined with an explicit fuel argument so
that every definition kernel-reduces (`decide` works on concrete inputs).

Definitions are translated from the source files; the single exception is
`seqFull`, which is modelled from the spec's list of nine style tokens and is
used only to exhibit the behaviour the spec describes at the points where the
source's `_seq` class lacks attributes.
-/

deriving instance DecidableEq for Except

namespace Trava

/-! ### Character / digit formatting utilities (embedding Python `str`/`format`) -/

/-- ASCII digit character for `n < 10`. -/
def digitChar (n : Nat) : Char := Char.ofNat (48 + n)

/-- Fuelled decimal-digit expansion (the fuel only forces structural
recursion; `natChars` always supplies enough). -/
def natCharsAux : Nat → Nat → List Char
  | 0, _ => []
  | fuel + 1, n =>
    if n < 10 then [digitChar n] else natCharsAux fuel (n / 10) ++ [digitChar (n % 10)]

/-- Decimal digits of a natural number, as produced by Python `str(n)`. -/
def natChars (n : Nat) : List Char := natCharsAux (n + 1) n

/-- Python `str(n)` for an integer. -/
def intChars (m : ℤ) : List Char :=
  if m < 0 then '-' :: natChars (-m).toNat else natChars m.toNat

/-- Zero padding to width `w`, as in Python format specs `02`, `05.2f`. -/
def padZeroL (w : Nat) (l : List Char) : List Char :=
  List.replicate (w - l.length) '0' ++ l

/-- Python `format(m, '02')`: zero-pad to a minimum width of 2 (the sign of a
negative number counts towards the width and precedes the zeros). -/
def fmt02Chars (m : ℤ) : List Char :=
  if m < 0 then '-' :: padZeroL 1 (natChars (-m).toNat) else padZeroL 2 (natChars m.toNat)

/-- Rendering of `n` centi-units as `"<whole>.<2-digit frac>"` (helper for `05.2f`). -/
def centiChars (n : Nat) : List Char :=
  natChars (n / 100) ++ '.' :: padZeroL 2 (natChars (n % 100))

/-- Python `format(q, '05.2f')`: round to centi-units, render with two forced
fractional digits, zero-pad the whole rendering to width 5.  (Ties round
half-up here; no value reachable from the claims is a tie.) -/
def fmtF052Chars (q : ℚ) : List Char :=
  if round (100 * q) < 0 then '-' :: padZeroL 4 (centiChars (-(round (100 * q))).toNat)
  else padZeroL 5 (centiChars (round (100 * q)).toNat)

/-- Uppercase hexadecimal digit for `n < 16`. -/
def hexDigit (n : Nat) : Char := if n < 10 then digitChar n else Char.ofNat (55 + n)

/-- Fuelled uppercase hexadecimal expansion. -/
def hexCharsAux : Nat → Nat → List Char
  | 0, _ => []
  | fuel + 1, n =>
    if n < 16 then [hexDigit n] else hexCharsAux fuel (n / 16) ++ [hexDigit (n % 16)]

/-- Uppercase hexadecimal digits of `n` (Python `format(n, 'X')`). -/
def hexChars (n : Nat) : List Char := hexCharsAux (n + 1) n

/-- Python `format(n, '04X')`: uppercase hex, zero-padded to width 4. -/
def hex4 (n : Nat) : String :=
  String.mk (List.replicate (4 - (hexChars n).length) '0' ++ hexChars n)

/-- Lexicographic comparison of char lists by code point (Python `str` `<=`). -/
def charListLE : List Char → List Char → Bool
  | [], _ => true
  | _ :: _, [] => false
  | a :: as, b :: bs =>
    if a.toNat < b.toNat then true
    else if b.toNat < a.toNat then false
    else charListLE as bs

/-- Python `s.startswith('.')`. -/
def startsWithDot (s : String) : Bool :=
  match s.toList with
  | '.' :: _ => true
  | _ => false

/-! ### `lib/colors.py`

The `_seq` class is embedded as an attribute lookup returning `Option String`;
a `none` result corresponds to Python raising `AttributeError` when the
attribute is referenced from a format string. -/

/-- Attribute table of the `_seq` class exactly as defined in
`lib/colors.py` lines 11–17: red, green, yellow, cyan, bold, off — and
nothing else. -/
def seqAttr (a : String) : Option String :=
  if a = "red" then some "\x1B[31m"
  else if a = "green" then some "\x1B[32m"
  else if a = "yellow" then some "\x1B[33m"
  else if a = "cyan" then some "\x1B[36m"
  else if a = "bold" then some "\x1B[1m"
  else if a = "off" then some "\x1B[0m"
  else none

/-- Modelled from the spec: the spec's Color Formatter contract lists nine
named style tokens (red, green, yellow, cyan, bold, dim, off, reverse,
unreverse).  `dim`, `reverse` and `unreverse` are missing from the source's
`_seq` class; their escape codes here are the standard ANSI SGR codes the
spec's wording ("ANSI escape codes", "reverse-video") implies.  Used only to
exhibit the spec-intended behaviour next to the source behaviour. -/
def seqFull (a : String) : Option String :=
  if a = "dim" then some "\x1B[2m"
  else if a = "reverse" then some "\x1B[7m"
  else if a = "unreverse" then some "\x1B[27m"
  else seqAttr a

/-- The character class of `_quote`'s regex `[\x00-\x1F\x7F-\x9F]`. -/
def isUnsafeChar (c : Char) : Bool :=
  c.toNat < 0x20 || (0x7F ≤ c.toNat && c.toNat ≤ 0x9F)

/-- Look an attribute up on the style object, raising `AttributeError` when it
is absent — the behaviour of `'{t.a}'.format(t=_seq)`. -/
def tokLookup (attr : String → Option String) (a : String) : Except String String :=
  match attr a with
  | some v => Except.ok v
  | none => Except.error ("AttributeError: " ++ a)

/-- Function `_quote_unsafe_char` from `lib/colors.py` lines 19–25.  Every branch
formats a template referencing `t.reverse` and `t.unreverse`; `t.reverse` is
evaluated first, so with the source's `_seq` every control character raises
`AttributeError: reverse`. -/
def quoteUnsafeChar (attr : String → Option String) (c : Char) : Except String String := do
  let rev ← tokLookup attr "reverse"
  let unrev ← tokLookup attr "unreverse"
  if c = '\t' then
    Except.ok (rev ++ "\t" ++ unrev)
  else if c.toNat < 0x20 || c.toNat = 0x7F then
    Except.ok (rev ++ "^" ++ String.mk [Char.ofNat (64 ^^^ c.toNat)] ++ unrev)
  else
    Except.ok (rev ++ "<U+" ++ hex4 c.toNat ++ ">" ++ unrev)

/-- Character-by-character body of `_quote` (lines 30–40): characters in the
unsafe class go through `_quote_unsafe_char`, all others are kept verbatim.
(The source's even/odd `re.split` chunking applies `_quote_unsafe_char`
exactly to the characters of the unsafe class, character-wise.) -/
def quoteChars (attr : String → Option String) : List Char → Except String String
  | [] => Except.ok ""
  | c :: rest => do
    let h ← if isUnsafeChar c then quoteUnsafeChar attr c else Except.ok (String.mk [c])
    let t ← quoteChars attr rest
    Except.ok (h ++ t)

/-- Python `_quote` on a textual value. -/
def pyQuote (attr : String → Option String) (s : String) : Except String String :=
  quoteChars attr s.toList

/-- Substitution values: Python strings, ints and floats (exactly embedded). -/
inductive FVal
  | vstr (s : String)
  | vint (n : ℤ)
  | vrat (q : ℚ)
deriving DecidableEq, Repr

/-- Format specs appearing in the program's templates. -/
inductive FSpec
  | plain
  | d02
  | f052
deriving DecidableEq, Repr

/-- A parsed template: literal text, `{t.a}` style tokens, `{name:spec}`
arguments. -/
inductive FField
  | lit (s : String)
  | tok (a : String)
  | arg (n : String) (spec : FSpec)
deriving DecidableEq, Repr

/-- Render one substitution value under a format spec (Python `format(v, spec)`
for the spec/value combinations the program uses). -/
def fmtVal (v : FVal) (spec : FSpec) : Except String String :=
  match spec, v with
  | .plain, .vstr s => Except.ok s
  | .plain, .vint n => Except.ok (String.mk (intChars n))
  | .d02, .vint n => Except.ok (String.mk (fmt02Chars n))
  | .f052, .vint n => Except.ok (String.mk (fmtF052Chars (n : ℚ)))
  | .f052, .vrat q => Except.ok (String.mk (fmtF052Chars q))
  | _, _ => Except.error "FormatSpecError"

/-- First-match association lookup (keyword-argument dictionary). -/
def assocGet : List (String × FVal) → String → Option FVal
  | [], _ => none
  | (n, v) :: rest, k => if n = k then some v else assocGet rest k

/-- Python `str.format`: renders the fields left to right; a style token
missing from the attribute table raises `AttributeError`, a keyword missing
from the mapping raises `KeyError`. -/
def strFormat (attr : String → Option String) : List FField → List (String × FVal) →
    Except String String
  | [], _ => Except.ok ""
  | f :: fs, env => do
    let h ← match f with
      | .lit s => Except.ok s
      | .tok a => tokLookup attr a
      | .arg n spec =>
        match assocGet env n with
        | none => Except.error ("KeyError: " ++ n)
        | some v => fmtVal v spec
    let t ← strFormat attr fs env
    Except.ok (h ++ t)

/-- The value-quoting pass of `lib.colors.format` (lines 42–47): every textual
keyword value is passed through `_quote` before formatting; non-textual values
pass through unchanged. -/
def quoteEnv (attr : String → Option String) :
    List (String × FVal) → Except String (List (String × FVal))
  | [] => Except.ok []
  | (n, v) :: rest => do
    let v' ← match v with
      | .vstr s => do
        let q ← pyQuote attr s
        Except.ok (FVal.vstr q)
      | other => Except.ok other
    let r ← quoteEnv attr rest
    Except.ok ((n, v') :: r)

/-- Function `lib.colors.format`: quote all keyword values, then render the template
(with the style object available as `t`). -/
def pyFormat (attr : String → Option String) (fields : List FField)
    (env : List (String × FVal)) : Except String String := do
  let env' ← quoteEnv attr env
  strFormat attr fields env'

/-! ### `lib/cli.py` — log stream renderer

Log lines are byte strings (`List Nat`). -/

/-- A byte of a log line. -/
abbrev Byte := Nat

/-- ASCII bytes of a string (all relevant source literals are ASCII). -/
def bytesOfStr (s : String) : List Byte := s.toList.map Char.toNat

/-- Python `line.rstrip(b'\r\n')`: drop trailing CR and LF bytes. -/
def pyRstripCRLF (l : List Byte) : List Byte :=
  (l.reverse.dropWhile (fun c => c == 13 || c == 10)).reverse

/-- Python `line.split(b'\r')`: split on every carriage-return byte.  Always
returns at least one (possibly empty) segment. -/
def pySplitCR : List Byte → List (List Byte)
  | [] => [[]]
  | c :: rest =>
    match pySplitCR rest with
    | [] => [[]]
    | s :: ss => if c = 13 then [] :: s :: ss else (c :: s) :: ss

/-- Python `line.rsplit(b'\r', 1)`: split at the last carriage return only
(`[whole]` when there is none, `[head, tail]` otherwise). -/
def pyRsplitCR1 : List Byte → List (List Byte)
  | [] => [[]]
  | c :: rest =>
    match pyRsplitCR1 rest with
    | [a] => if c = 13 then [[], a] else [c :: a]
    | [a, b] => [(c :: a), b]
    | _ => [[]]

/-- Collapsed-mode rendering of one line (`show_job`, lines 208–211):
`line.rstrip(b'\r\n').rsplit(b'\r', 1)[-1]` followed by the two buffer writes
of the segment and a single newline byte. -/
def collapseLine (l : List Byte) : List Byte :=
  (pyRsplitCR1 (pyRstripCRLF l)).getLastD [] ++ [10]

/-- The spec's wording of collapsed mode: strip trailing CR/LF, split on raw
carriage-return bytes, keep only the last segment.  Compared against
`collapseLine` in the C4 theorem. -/
def lastSegmentSpec (l : List Byte) : List Byte :=
  (pySplitCR (pyRstripCRLF l)).getLastD []

/-- ASCII letter byte (`[a-zA-Z]`). -/
def isAlphaB (c : Byte) : Bool := (65 ≤ c && c ≤ 90) || (97 ≤ c && c ≤ 122)

/-- ASCII digit byte (`\d`). -/
def isDigitB (c : Byte) : Bool := 48 ≤ c && c ≤ 57

/-- Word byte (`\w`, ASCII part). -/
def isWordB (c : Byte) : Bool := isAlphaB c || isDigitB c || c == 95

/-- After `ESC [`, the lazy `.*?[a-zA-Z]` of the ANSI-stripping regex: drop
bytes up to and including the first letter; fail on a newline byte (which `.`
does not match) or end of input. -/
def ansiSkip : List Byte → Option (List Byte)
  | [] => none
  | c :: rest => if isAlphaB c then some rest else if c = 10 then none else ansiSkip rest

/-- Fuelled body of `re.sub(br'\x1B\[.*?[a-zA-Z]', b'', pragma)` (line 177):
scan left to right, delete each minimal `ESC [ … letter` escape sequence. -/
def stripAnsiAux : Nat → List Byte → List Byte
  | 0, l => l
  | _ + 1, [] => []
  | fuel + 1, 27 :: 91 :: rest2 =>
    match ansiSkip rest2 with
    | some rest3 => stripAnsiAux fuel rest3
    | none => 27 :: stripAnsiAux fuel (91 :: rest2)
  | fuel + 1, c :: rest => c :: stripAnsiAux fuel rest

/-- ANSI-escape removal (`re.sub` of line 177). -/
def stripAnsi (l : List Byte) : List Byte := stripAnsiAux (l.length + 1) l

/-- Match a literal byte sequence as a prefix, returning the remainder. -/
def litB : List Byte → List Byte → Option (List Byte)
  | [], l => some l
  | _ :: _, [] => none
  | p :: ps, c :: cs => if p = c then litB ps cs else none

/-- Greedy `(\d+)`: one or more digits, returning their value and the rest. -/
def digitsNum (l : List Byte) : Option (Nat × List Byte) :=
  let ds := l.takeWhile isDigitB
  if ds.isEmpty then none
  else some (ds.foldl (fun a c => 10 * a + (c - 48)) 0, l.drop ds.length)

/-- The timing-pragma regex of line 178,
`\Atravis_time:end:\w+:start=(\d+),finish=(\d+),duration=\d+\Z`, as a
deterministic parser (each greedy class is followed by a byte outside the
class, so maximal munch is exact).  Returns the `start` and `finish`
captures. -/
def matchPragma (l : List Byte) : Option (Nat × Nat) := do
  let l ← litB (bytesOfStr "travis_time:end:") l
  let tok := l.takeWhile isWordB
  if tok.isEmpty then none else do
  let l ← litB (bytesOfStr ":start=") (l.drop tok.length)
  let (st, l) ← digitsNum l
  let l ← litB (bytesOfStr ",finish=") l
  let (fin, l) ← digitsNum l
  let l ← litB (bytesOfStr ",duration=") l
  let (_, l) ← digitsNum l
  if l.isEmpty then some (st, fin) else none

/-- Python `divmod(t, 60)` on seconds: whole minutes and remainder seconds. -/
def divmod60 (t : ℚ) : ℤ × ℚ := (⌊t / 60⌋, t - 60 * ⌊t / 60⌋)

/-- The per-line timing scan of `print_ts_lines` (lines 176–185): for each
pragma segment, strip ANSI escapes and match the timing regex; on the first
match of the stream record `start` (nanoseconds converted to seconds) as the
origin; every match yields `divmod(finish_seconds - origin, 60)`.  Returns the
updated origin and the `(minutes, seconds)` stamps of the line in order. -/
def lineStamps : Option ℚ → List (List Byte) → Option ℚ × List (ℤ × ℚ)
  | st, [] => (st, [])
  | st, p :: rest =>
    match matchPragma (stripAnsi p) with
    | none => lineStamps st rest
    | some (a, b) =>
      let s0 : ℚ := st.getD ((a : ℚ) / 10 ^ 9)
      let t : ℚ := (b : ℚ) / 10 ^ 9 - s0
      let ms := divmod60 t
      let r := lineStamps (some s0) rest
      (r.1, ms :: r.2)

/-- The timestamp template `'{t.dim}{m:02}:{s:05.2f}{t.off}'` of line 169. -/
def tsTemplate : List FField :=
  [.tok "dim", .arg "m" .d02, .lit ":", .arg "s" .f052, .tok "off"]

/-- The attribute table of `types.SimpleNamespace(dim='', off='')` used on
line 170 to measure the marker's style-code-free width. -/
def nsBlank (a : String) : Option String :=
  if a = "dim" || a = "off" then some "" else none

/-- Python `template.format(m=0, s=0, t=types.SimpleNamespace(dim='', off=''))`. -/
def placeholderBase : String :=
  (strFormat nsBlank tsTemplate [("m", .vint 0), ("s", .vint 0)]).toOption.getD ""

/-- The blank placeholder of line 170: one space per character of the
style-free zero marker. -/
def placeholder : String := String.mk (List.replicate placeholderBase.length ' ')

/-- The style-code-free text of a rendered marker: `{m:02}:{s:05.2f}` (the
template of line 169 minus the `t.dim`/`t.off` style fields — exactly what the
placeholder width measurement renders). -/
def markerChars (m : ℤ) (s : ℚ) : List Char := fmt02Chars m ++ ':' :: fmtF052Chars s

/-- Everything `print_ts_lines` writes: styled text via `print` and raw bytes
via `sys.stdout.buffer.write`. -/
inductive OutItem
  | str (s : String)
  | bytes (b : List Byte)
deriving DecidableEq, Repr

/-- Rendering of a line's stamps (the body of the pragma loop, lines 186–190):
a line break before every marker but the first, then the marker formatted with
`lib.colors.format` — which, with the source `_seq`, raises
`AttributeError: dim`.  Returns the items printed before any error, and the
error if one occurred. -/
def renderStamps : Bool → List (ℤ × ℚ) → List OutItem × Option String
  | _, [] => ([], none)
  | haveTs, (m, s) :: rest =>
    let pre : List OutItem := if haveTs then [.str "\n"] else []
    match pyFormat seqAttr tsTemplate [("m", .vint m), ("s", .vrat s)] with
    | .error e => (pre, some e)
    | .ok ts =>
      let r := renderStamps true rest
      (pre ++ .str ts :: r.1, r.2)

/-- One iteration of `print_ts_lines`' line loop (lines 172–197): strip
trailing CR/LF, split on CR into pragma segments plus the visible text,
render the stamps, then either a single trailing space (markers present) or
the placeholder plus space, then the raw text bytes and a newline byte. -/
def tsLine (st : Option ℚ) (line : List Byte) : Option ℚ × List OutItem × Option String :=
  let parts := pySplitCR (pyRstripCRLF line)
  let sr := lineStamps st parts.dropLast
  let rr := renderStamps false sr.2
  match rr.2 with
  | some e => (sr.1, rr.1, some e)
  | none =>
    let tail : List OutItem :=
      if sr.2.isEmpty then [.str (placeholder ++ " ")] else [.str " "]
    (sr.1, rr.1 ++ tail ++ [.bytes (parts.getLastD []), .bytes [10]], none)

/-- Function `print_ts_lines` over a whole stream: thread the origin through the lines,
stopping at the first uncaught exception; returns everything printed before
the stop, and the exception if any. -/
def printTsLines : Option ℚ → List (List Byte) → List OutItem × Option String
  | _, [] => ([], none)
  | st, l :: rest =>
    let r := tsLine st l
    match r.2.2 with
    | some e => (r.2.1, some e)
    | none =>
      let r2 := printTsLines r.1 rest
      (r.2.1 ++ r2.1, r2.2)

/-- Function `print_ts_lines` starting with no recorded origin (line 171). -/
def printTsLinesRun (lines : List (List Byte)) : List OutItem × Option String :=
  printTsLines none lines

/-- The style-free marker texts of each line, from the same timing scan. -/
def tsMarkerTexts : Option ℚ → List (List Byte) → List (List String)
  | _, [] => []
  | st, l :: rest =>
    let parts := pySplitCR (pyRstripCRLF l)
    let sr := lineStamps st parts.dropLast
    (sr.2.map fun ms => String.mk (markerChars ms.1 ms.2)) :: tsMarkerTexts sr.1 rest

/-- Style-free marker texts of a stream, from a fresh origin. -/
def tsMarkerTextsRun (lines : List (List Byte)) : List (List String) :=
  tsMarkerTexts none lines

/-! ### `lib/cli.py` — URL router

The dispatch loop of `main` (lines 81–88) matches the URL path against
`\A/(?:github/)?(?P<project>[\w.-]+/[\w.-]+)<suffix>\Z` for each registered
suffix, in registration order.  The character classes `[\w.-]` and `\d`
exclude `/`, so a path matches exactly by its `/`-separated segments, and for
each pattern at most one of the alias/no-alias alternatives fits (they need
different segment counts).  Paths are represented by their `'/'.split` segment
lists (absolute paths start with an empty segment). -/

/-- A character of the `[\w.-]` class (ASCII part of `\w`). -/
def projChar (c : Char) : Bool := c.isAlphanum || c = '_' || c = '.' || c = '-'

/-- A nonempty `[\w.-]+` segment. -/
def projSeg (s : String) : Bool := !s.isEmpty && s.toList.all projChar

/-- A nonempty `\d+` segment. -/
def digitSeg (s : String) : Bool := !s.isEmpty && s.toList.all fun c => c.isDigit

/-- Registered pattern `'branches'` (listed first): `/project/branches`. -/
def matchBranches : List String → Option String
  | [e, a, b, c] =>
    if e = "" && c = "branches" && projSeg a && projSeg b then some (a ++ "/" ++ b) else none
  | [e, g, a, b, c] =>
    if e = "" && g = "github" && c = "branches" && projSeg a && projSeg b then
      some (a ++ "/" ++ b)
    else none
  | _ => none

/-- Registered pattern `''` (listed second): bare `/project`. -/
def matchRoot : List String → Option String
  | [e, a, b] => if e = "" && projSeg a && projSeg b then some (a ++ "/" ++ b) else none
  | [e, g, a, b] =>
    if e = "" && g = "github" && projSeg a && projSeg b then some (a ++ "/" ++ b) else none
  | _ => none

/-- Registered pattern `'builds/(?P<build_id>\d+)'`. -/
def matchBuilds : List String → Option (String × String)
  | [e, a, b, c, d] =>
    if e = "" && c = "builds" && projSeg a && projSeg b && digitSeg d then
      some (a ++ "/" ++ b, d)
    else none
  | [e, g, a, b, c, d] =>
    if e = "" && g = "github" && c = "builds" && projSeg a && projSeg b && digitSeg d then
      some (a ++ "/" ++ b, d)
    else none
  | _ => none

/-- Registered pattern `'jobs/(?P<job_id>\d+)'`. -/
def matchJobs : List String → Option (String × String)
  | [e, a, b, c, d] =>
    if e = "" && c = "jobs" && projSeg a && projSeg b && digitSeg d then
      some (a ++ "/" ++ b, d)
    else none
  | [e, g, a, b, c, d] =>
    if e = "" && g = "github" && c = "jobs" && projSeg a && projSeg b && digitSeg d then
      some (a ++ "/" ++ b, d)
    else none
  | _ => none

/-- The handler a path dispatches to, with its named captures.  Both the `''`
and `'branches'` patterns are bound to `show_branches` (lines 92–94). -/
inductive RouteResult
  | branches (project : String)
  | build (project buildId : String)
  | job (project jobId : String)
deriving DecidableEq, Repr

/-- The dispatch loop: try the registered patterns in registration order
(`'branches'`, `''`, `'builds/…'`, `'jobs/…'` — decorators apply bottom-up),
first match wins. -/
def routeSegs (segs : List String) : Option RouteResult :=
  match matchBranches segs with
  | some p => some (.branches p)
  | none =>
    match matchRoot segs with
    | some p => some (.branches p)
    | none =>
      match matchBuilds segs with
      | some pi => some (.build pi.1 pi.2)
      | none =>
        match matchJobs segs with
        | some pi => some (.job pi.1 pi.2)
        | none => none

/-- Outcome of `main` after URL checks: either `ap.error('unsupported URL')`
(argparse usage error) or a dispatch to a handler. -/
inductive MainOutcome
  | usageError
  | dispatched (r : RouteResult)
deriving DecidableEq, Repr

/-- The `for … else: ap.error('unsupported URL')` of lines 81–88. -/
def routeOutcome (segs : List String) : MainOutcome :=
  match routeSegs segs with
  | some r => .dispatched r
  | none => .usageError

/-- Process exit status of each outcome: `argparse.ArgumentParser.error` exits
with status 2; a dispatched handler returns `None` (status 0). -/
def exitCodeOf : MainOutcome → Nat
  | .usageError => 2
  | .dispatched _ => 0

/-! ### `lib/cli.py` — `.` resolution via git (`get_git_url`, lines 50–64)

The `git ls-remote --get-url` subprocess either produces a remote URL (here
already decoded, stripped and `urlsplit` into scheme/netloc/path) or fails
with an exit status. -/

/-- Result of the `git ls-remote --get-url` subprocess. -/
inductive GitRemote
  | output (scheme netloc path : String)
  | fails (code : Nat)
deriving DecidableEq, Repr

/-- Strip a trailing `.git` from the remote path (lines 60–61). -/
def stripGitSuffix (p : String) : String :=
  if p.endsWith ".git" then p.dropRight 4 else p

/-- Function `get_git_url`: exit status 128 means no remote and yields `None`; any
other `CalledProcessError` re-raises; a URL on a host other than `github.com`
yields `None`; otherwise the path (without `.git`) is returned. -/
def get_git_url : GitRemote → Except Nat (Option String)
  | .fails c => if c = 128 then .ok none else .error c
  | .output _ netloc path =>
    if netloc = "github.com" then .ok (some (stripGitSuffix path)) else .ok none

/-- Split a char list on `'/'` (segments of a URL path). -/
def splitSlashChars : List Char → List (List Char)
  | [] => [[]]
  | c :: rest =>
    match splitSlashChars rest with
    | [] => [[]]
    | s :: ss => if c = '/' then [] :: s :: ss else (c :: s) :: ss

/-- The `'/'`-separated segments of a URL path. -/
def pathSegs (p : String) : List String := (splitSlashChars p.toList).map String.mk

/-- The `options.url == '.'` branch of `main` (lines 73–88): resolve the URL
from git.  When `get_git_url` returns `None`, `urljoin('https://travis-ci.org/',
None)` returns the base URL, whose path `/` is then routed (and rejected);
when it returns a path, `urljoin` makes it the URL's path, which is routed.
A re-raised `CalledProcessError` propagates as a fatal error. -/
def mainDot (git : GitRemote) : Except Nat MainOutcome :=
  match get_git_url git with
  | .error c => .error c
  | .ok none => .ok (routeOutcome (pathSegs "/"))
  | .ok (some p) => .ok (routeOutcome (pathSegs p))

/-! ### `lib/pager.py` — `autopager` (lines 28–58) -/

/-- An exception escaping the managed block (or the final flush/close of the
redirected stream): the broken-pipe error, or any other exception. -/
inductive PExc
  | brokenPipe
  | other (e : Nat)
deriving DecidableEq, Repr

/-- Outcome of the block run under the context manager. -/
inductive BodyRes
  | normal
  | raises (e : PExc)
deriving DecidableEq, Repr

/-- Observable end state of one `autopager()` session. -/
structure PagerRun where
  usedPager : Bool
  closedStream : Bool
  waitedPager : Bool
  stdoutIsOriginal : Bool
  sysExit : Option Nat
  propagated : Option PExc
deriving DecidableEq, Repr

/-- The control flow of `autopager`: pass through when stdout is not a tty or
the pager is `cat`; otherwise redirect stdout into the pager pipe and run the
body inside `try/finally: close` / `finally: wait` /
`except BrokenPipeError: sys.exit(1)` / `finally: restore stdout`. -/
def autopager (tty : Bool) (cmdline : String) (body : BodyRes) : PagerRun :=
  if tty = false ∨ cmdline = "cat" then
    { usedPager := false, closedStream := false, waitedPager := false,
      stdoutIsOriginal := true, sysExit := none,
      propagated := match body with | .normal => none | .raises e => some e }
  else
    -- sys.stdout redirected into the pager pipe (line 46)
    -- inner finally: sys.stdout.close() always runs (line 52)
    -- outer finally: pager.wait() always runs (line 54)
    -- except BrokenPipeError: sys.exit(1) (lines 55–56)
    -- outermost finally: sys.stdout = orig_stdout always runs (line 58)
    let exc : Option PExc := match body with | .normal => none | .raises e => some e
    let caught : Option Nat × Option PExc :=
      match exc with
      | some .brokenPipe => (some 1, none)
      | e => (none, e)
    { usedPager := true, closedStream := true, waitedPager := true,
      stdoutIsOriginal := true, sysExit := caught.1, propagated := caught.2 }

/-! ### `lib/cli.py` — `show_build` config collapsing (lines 121–158) -/

/-- A JSON-ish Python value as found in a job's `config` mapping: scalars
(str, int, bool, None) and nested containers (dict, list — whose contents the
collapsing logic never inspects). -/
inductive PyVal
  | pstr (s : String)
  | pint (n : ℤ)
  | pbool (b : Bool)
  | pnone
  | pdict
  | plist
deriving DecidableEq, Repr

/-- Python `isinstance(value, (dict, list))`. -/
def isNested : PyVal → Bool
  | .pdict => true
  | .plist => true
  | _ => false

/-- A job of the build matrix.  Only the `config` mapping feeds the config
collapsing; the other fields (`number`, `id`, `result`, `finished_at`) only
affect styling and are omitted. -/
structure Job where
  config : List (String × PyVal)
deriving DecidableEq, Repr

/-- Python `job['config'].get(key)`: the first binding, `None` when absent. -/
def pyGet (cfg : List (String × PyVal)) (k : String) : PyVal :=
  match cfg with
  | [] => .pnone
  | (k', v) :: rest => if k' = k then v else pyGet rest k

/-- Counter `config_keys = collections.Counter()` over all jobs' config keys
(lines 127–129): the number of jobs whose config carries `k`. -/
def configKeysCount (matrix : List Job) (k : String) : Nat :=
  (matrix.filter fun j => (j.config.map Prod.fst).contains k).length

/-- Set `config_coll[key]` (lines 125, 133–138): the set of `job['config'].get(key)`
values over all jobs, nested values skipped (`None` stands for a missing
key). -/
def configColl (matrix : List Job) (k : String) : Finset PyVal :=
  ((matrix.map fun j => pyGet j.config k).filter fun v => !isNested v).toFinset

/-- Key function `config_sort` (lines 130–132): sort items by `(-config_keys[key], key)`. -/
def configSortLE (matrix : List Job) (a b : String × PyVal) : Bool :=
  decide (configKeysCount matrix b.1 < configKeysCount matrix a.1) ||
    (decide (configKeysCount matrix a.1 = configKeysCount matrix b.1) &&
      charListLE a.1.toList b.1.toList)

/-- Stable insertion into a sorted list (auxiliary for `sorted`). -/
def insertLE {α : Type} (le : α → α → Bool) (x : α) : List α → List α
  | [] => [x]
  | y :: ys => if le x y then x :: y :: ys else y :: insertLE le x ys

/-- Python `sorted(l, key=…)`: a stable sort under the boolean order. -/
def sortLE {α : Type} (le : α → α → Bool) : List α → List α
  | [] => []
  | x :: xs => insertLE le x (sortLE le xs)

/-- The filter of the rendering loop (lines 149–155): skip keys starting with
`.`, nested values, and keys whose collected value set has exactly one
element. -/
def keepPair (matrix : List Job) (p : String × PyVal) : Bool :=
  !startsWithDot p.1 && !isNested p.2 && !decide ((configColl matrix p.1).card = 1)

/-- The `(key, value)` items rendered for one job: its config items, sorted by
`config_sort`, filtered by the rendering loop's conditions. -/
def renderPairs (matrix : List Job) (job : Job) : List (String × PyVal) :=
  (sortLE (configSortLE matrix) job.config).filter (keepPair matrix)

/-- Python `str(value)` for the scalar values (`f'{key}={value}'`). -/
def pyValStr : PyVal → String
  | .pstr s => s
  | .pint n => String.mk (intChars n)
  | .pbool b => if b then "True" else "False"
  | .pnone => "None"
  | .pdict => "<dict>"
  | .plist => "<list>"

/-- The `f'{key}={value}'` strings collected for one job (line 156). -/
def renderConfigStrings (matrix : List Job) (job : Job) : List String :=
  (renderPairs matrix job).map fun p => p.1 ++ "=" ++ pyValStr p.2

/-- Python `config = ' '.join(config)` (line 157). -/
def renderConfig (matrix : List Job) (job : Job) : String :=
  " ".intercalate (renderConfigStrings matrix job)

/-! ### Concrete inputs for the timestamp-mode claims -/

/-- First line of the C1 stream: a pragma segment with
`start=1000000000,finish=2500000000`, then the visible text `ok`. -/
def c1Line1 : List Byte :=
  bytesOfStr "travis_time:end:0a1b2c3d:start=1000000000,finish=2500000000,duration=1500000000\rok\n"

/-- Second line of the C1 stream: `start=2000000000,finish=4000000000`. -/
def c1Line2 : List Byte :=
  bytesOfStr "travis_time:end:1f2e3d4c:start=2000000000,finish=4000000000,duration=2000000000\rdone\n"

/-- The two-line stream of claim C1. -/
def c1Input : List (List Byte) := [c1Line1, c1Line2]

/-- A marker-free line. -/
def helloLine : List Byte := bytesOfStr "hello\n"

/-- The mixed stream of claim C6: an unmarked line followed by a marked one. -/
def c6Input : List (List Byte) := [helloLine, c1Line1]

/-! ### Concrete build matrix for claim C9 -/

/-- First job of the C9 fixture: `os=linux`, `env=A`. -/
def c9Job1 : Job := ⟨[("os", .pstr "linux"), ("env", .pstr "A")]⟩

/-- Second job of the C9 fixture: `os=linux`, `env=B`. -/
def c9Job2 : Job := ⟨[("os", .pstr "linux"), ("env", .pstr "B")]⟩

/-- The C9 fixture matrix: `os` constant, `env` differing. -/
def c9Matrix : List Job := [c9Job1, c9Job2]

/-! ## Supporting lemmas -/

/-- Fuel irrelevance for the decimal expansion. -/
theorem natCharsAux_congr : ∀ (n f g : Nat), n < f → n < g → natCharsAux f n = natCharsAux g n := by
  intro n
  induction n using Nat.strong_induction_on with
  | _ n ih =>
    intro f g hf hg
    obtain ⟨f', rfl⟩ : ∃ f', f = f' + 1 := ⟨f - 1, by omega⟩
    obtain ⟨g', rfl⟩ : ∃ g', g = g' + 1 := ⟨g - 1, by omega⟩
    by_cases h10 : n < 10
    · simp [natCharsAux, h10]
    · have hrec : n / 10 < n := Nat.div_lt_self (by omega) (by omega)
      simp only [natCharsAux, if_neg h10]
      rw [ih (n / 10) hrec f' g' (by omega) (by omega)]

/-- The recursion equation of `natChars` with the fuel discharged. -/
theorem natChars_eq (n : Nat) :
    natChars n = if n < 10 then [digitChar n] else natChars (n / 10) ++ [digitChar (n % 10)] := by
  by_cases h10 : n < 10
  · simp [natChars, natCharsAux, h10]
  · have hrec : n / 10 < n := Nat.div_lt_self (by omega) (by omega)
    have h1 : natChars n = natCharsAux n (n / 10) ++ [digitChar (n % 10)] := by
      simp only [natChars, natCharsAux, if_neg h10]
    rw [h1, if_neg h10, natCharsAux_congr (n / 10) n (n / 10 + 1) (by omega) (by omega)]
    rfl

/-- Python `str(n)` is never empty. -/
theorem natChars_length_pos (n : Nat) : 0 < (natChars n).length := by
  rw [natChars_eq]
  by_cases h10 : n < 10 <;> simp [h10]

/-- At most two digits below 100. -/
theorem natChars_length_le2 (n : Nat) (h : n < 100) : (natChars n).length ≤ 2 := by
  rw [natChars_eq]
  by_cases h10 : n < 10
  · simp [h10]
  · have hq : n / 10 < 10 := by omega
    rw [if_neg h10, natChars_eq, if_pos hq]
    simp

/-- At least three digits from 100 on. -/
theorem natChars_length_ge3 (n : Nat) (h : 100 ≤ n) : 3 ≤ (natChars n).length := by
  rw [natChars_eq, if_neg (by omega)]
  rw [natChars_eq, if_neg (by omega : ¬ n / 10 < 10)]
  have := natChars_length_pos (n / 10 / 10)
  simp
  omega

/-- Length of zero padding. -/
theorem padZeroL_length (w : Nat) (l : List Char) :
    (padZeroL w l).length = (w - l.length) + l.length := by
  simp [padZeroL]

/-- A nonnegative minutes value below 100 renders in exactly two columns. -/
theorem fmt02Chars_length_lt (m : ℤ) (h0 : 0 ≤ m) (h : m < 100) : (fmt02Chars m).length = 2 := by
  rw [fmt02Chars, if_neg (by omega)]
  have := natChars_length_le2 m.toNat (by omega)
  rw [padZeroL_length]
  omega

/-- A minutes value of 100 or more renders in at least three columns. -/
theorem fmt02Chars_length_ge (m : ℤ) (h : 100 ≤ m) : 3 ≤ (fmt02Chars m).length := by
  rw [fmt02Chars, if_neg (by omega)]
  have := natChars_length_ge3 m.toNat (by omega)
  rw [padZeroL_length]
  omega

/-- A seconds value in `[0, 60)` renders in exactly five columns under
`05.2f`. -/
theorem fmtF052Chars_length (s : ℚ) (h0 : 0 ≤ s) (h : s < 60) : (fmtF052Chars s).length = 5 := by
  have hcs0 : 0 ≤ round (100 * s) := by
    rw [round_eq]
    exact Int.le_floor.mpr (by push_cast; linarith)
  have hcs1 : round (100 * s) ≤ 6000 := by
    have h' : round (100 * s) < 6001 := by
      rw [round_eq]
      exact Int.floor_lt.mpr (by push_cast; linarith)
    omega
  rw [fmtF052Chars, if_neg (by omega)]
  have hdiv : (round (100 * s)).toNat / 100 < 100 := by omega
  have hmod : (round (100 * s)).toNat % 100 < 100 := by omega
  have l1 := natChars_length_le2 ((round (100 * s)).toNat / 100) hdiv
  have l1p := natChars_length_pos ((round (100 * s)).toNat / 100)
  have l2 := natChars_length_le2 ((round (100 * s)).toNat % 100) hmod
  rw [padZeroL_length]
  simp [centiChars, padZeroL_length]
  omega

/-- Bounds of the `divmod` remainder: the seconds part is in `[0, 60)`. -/
theorem divmod60_snd_bounds (t : ℚ) : 0 ≤ (divmod60 t).2 ∧ (divmod60 t).2 < 60 := by
  have h1 : ((⌊t / 60⌋ : ℤ) : ℚ) ≤ t / 60 := Int.floor_le (t / 60)
  have h2 : t / 60 < (⌊t / 60⌋ : ℤ) + 1 := Int.lt_floor_add_one (t / 60)
  constructor
  · simp only [divmod60]
    nlinarith
  · simp only [divmod60]
    nlinarith

/-- A nonnegative elapsed time has a nonnegative minutes part. -/
theorem divmod60_fst_nonneg (t : ℚ) (h : 0 ≤ t) : 0 ≤ (divmod60 t).1 := by
  simp only [divmod60]
  exact Int.le_floor.mpr (by positivity)

/-- Below 6000 seconds the minutes part stays below 100. -/
theorem divmod60_fst_lt (t : ℚ) (h : t < 6000) : (divmod60 t).1 < 100 := by
  simp only [divmod60]
  apply Int.floor_lt.mpr
  push_cast
  linarith

/-- From 6000 seconds on the minutes part reaches 100. -/
theorem divmod60_fst_ge (t : ℚ) (h : 6000 ≤ t) : 100 ≤ (divmod60 t).1 := by
  simp only [divmod60]
  apply Int.le_floor.mpr
  push_cast
  linarith

/-- Splitting never yields an empty segment list. -/
theorem pySplitCR_ne_nil (l : List Byte) : pySplitCR l ≠ [] := by
  match l with
  | [] => simp [pySplitCR]
  | c :: rest =>
    have := pySplitCR_ne_nil rest
    simp only [pySplitCR]
    match h : pySplitCR rest with
    | [] => exact absurd h this
    | s :: ss =>
      by_cases hc : c = 13 <;> simp [hc]

/-- Without a carriage return, `split` keeps the line whole. -/
theorem pySplitCR_no13 (l : List Byte) (h : 13 ∉ l) : pySplitCR l = [l] := by
  induction l with
  | nil => rfl
  | cons c rest ih =>
    have hc : c ≠ 13 := fun hx => h (by simp [hx])
    have hr : 13 ∉ rest := fun hx => h (by simp [hx])
    simp only [pySplitCR, ih hr]
    simp [hc]

/-- Splitting distributes over a carriage return in the middle. -/
theorem pySplitCR_append13 (a b : List Byte) :
    pySplitCR (a ++ 13 :: b) = pySplitCR a ++ pySplitCR b := by
  induction a with
  | nil =>
    simp only [List.nil_append, pySplitCR]
    match h : pySplitCR b with
    | [] => exact absurd h (pySplitCR_ne_nil b)
    | s :: ss => simp [pySplitCR]
  | cons c a' ih =>
    have h2 : pySplitCR (c :: (a' ++ 13 :: b)) =
        match pySplitCR (a' ++ 13 :: b) with
        | [] => [[]]
        | s :: ss => if c = 13 then [] :: s :: ss else (c :: s) :: ss := rfl
    rw [List.cons_append, h2, ih]
    match h : pySplitCR a' with
    | [] => exact absurd h (pySplitCR_ne_nil a')
    | s :: ss =>
      have h3 : pySplitCR (c :: a') =
          match pySplitCR a' with
          | [] => [[]]
          | s :: ss => if c = 13 then [] :: s :: ss else (c :: s) :: ss := rfl
      rw [h3, h]
      by_cases hc : c = 13 <;> simp [hc]

/-- Without a carriage return, `rsplit(b'\r', 1)` keeps the line whole. -/
theorem pyRsplitCR1_no13 (l : List Byte) (h : 13 ∉ l) : pyRsplitCR1 l = [l] := by
  induction l with
  | nil => rfl
  | cons c rest ih =>
    have hc : c ≠ 13 := fun hx => h (by simp [hx])
    have hr : 13 ∉ rest := fun hx => h (by simp [hx])
    simp only [pyRsplitCR1, ih hr]
    simp [hc]

/-- Python `rsplit(b'\r', 1)` cuts exactly at the last carriage return. -/
theorem pyRsplitCR1_append13 (a b : List Byte) (hb : 13 ∉ b) :
    pyRsplitCR1 (a ++ 13 :: b) = [a, b] := by
  induction a with
  | nil => simp [pyRsplitCR1, pyRsplitCR1_no13 b hb]
  | cons c a' ih => simp [pyRsplitCR1, ih]

/-- Any list containing 13 decomposes at its last occurrence. -/
theorem exists_last_13 (l : List Byte) (h : 13 ∈ l) :
    ∃ a b, l = a ++ 13 :: b ∧ 13 ∉ b := by
  induction l with
  | nil => cases h
  | cons c rest ih =>
    by_cases hr : 13 ∈ rest
    · obtain ⟨a, b, rfl, hb⟩ := ih hr
      exact ⟨c :: a, b, rfl, hb⟩
    · have hc : c = 13 := by
        rcases List.mem_cons.mp h with h1 | h1
        · exact h1.symm
        · exact absurd h1 hr
      exact ⟨[], rest, by simp [hc], hr⟩

/-- Last element of a list ending in a known element. -/
theorem getLastD_append_singleton {α : Type} (xs : List α) (y : α) (d : α) :
    (xs ++ [y]).getLastD d = y := by
  induction xs generalizing d with
  | nil => rfl
  | cons x xs ih => simp only [List.cons_append, List.getLastD_cons, ih]

/-- Members of a stable insertion. -/
theorem mem_insertLE {α : Type} (le : α → α → Bool) (x a : α) (l : List α) :
    a ∈ insertLE le x l ↔ a = x ∨ a ∈ l := by
  induction l with
  | nil => simp [insertLE]
  | cons y ys ih =>
    simp only [insertLE]
    by_cases hle : le x y
    · simp [hle]
    · rw [if_neg (by simp [hle])]
      simp only [List.mem_cons, ih]
      tauto

/-- Sorting preserves membership. -/
theorem mem_sortLE {α : Type} (le : α → α → Bool) (a : α) (l : List α) :
    a ∈ sortLE le l ↔ a ∈ l := by
  induction l with
  | nil => simp [sortLE]
  | cons x xs ih => simp [sortLE, mem_insertLE, ih]

/-- A non-`None` `get` result is an actual binding of the mapping. -/
theorem pyGet_mem (cfg : List (String × PyVal)) (k : String) (v : PyVal)
    (h : pyGet cfg k = v) (hv : v ≠ .pnone) : (k, v) ∈ cfg := by
  induction cfg with
  | nil => exact absurd h.symm hv
  | cons p rest ih =>
    obtain ⟨k', w⟩ := p
    by_cases hk : k' = k
    · subst hk
      simp only [pyGet, if_pos rfl] at h
      subst h
      exact List.mem_cons_self _ _
    · simp only [pyGet, if_neg hk] at h
      exact List.mem_cons_of_mem _ (ih h)

/-- With distinct keys, `get` returns the value of any binding. -/
theorem pyGet_of_mem_nodup (cfg : List (String × PyVal)) (k : String) (v : PyVal)
    (h : (k, v) ∈ cfg) (hnd : (cfg.map Prod.fst).Nodup) : pyGet cfg k = v := by
  induction cfg with
  | nil => cases h
  | cons p rest ih =>
    obtain ⟨k', w⟩ := p
    simp only [List.map_cons, List.nodup_cons] at hnd
    rcases List.mem_cons.mp h with h1 | h1
    · rw [Prod.mk.injEq] at h1
      obtain ⟨rfl, rfl⟩ := h1
      simp [pyGet]
    · have hk : k' ≠ k := by
        intro hx
        subst hx
        exact hnd.1 (List.mem_map.mpr ⟨(k', v), h1, rfl⟩)
      simp only [pyGet, if_neg hk]
      exact ih h1 hnd.2

/-- A scalar value shared by every job makes the collected set a singleton. -/
theorem configColl_all_eq (matrix : List Job) (k : String) (v : PyVal)
    (h : ∀ j ∈ matrix, pyGet j.config k = v) (hv : isNested v = false)
    (hne : matrix ≠ []) : configColl matrix k = {v} := by
  unfold configColl
  have hmap : matrix.map (fun j => pyGet j.config k) = List.replicate matrix.length v := by
    rw [List.eq_replicate_iff]
    refine ⟨by simp, fun b hb => ?_⟩
    obtain ⟨j, hj, rfl⟩ := List.mem_map.mp hb
    exact h j hj
  rw [hmap, List.filter_replicate, if_pos (by simp [hv])]
  have hlen : matrix.length ≠ 0 := by
    intro hx
    exact hne (List.length_eq_zero.mp hx)
  ext x
  simp [List.mem_replicate, hlen]

/-- A scalar value carried by some job is in the collected set. -/
theorem configColl_mem (matrix : List Job) (k : String) (j : Job) (v : PyVal)
    (hj : j ∈ matrix) (h : pyGet j.config k = v) (hv : isNested v = false) :
    v ∈ configColl matrix k := by
  unfold configColl
  rw [List.mem_toFinset, List.mem_filter]
  exact ⟨List.mem_map.mpr ⟨j, hj, h⟩, by simp [hv]⟩

/-- An already-set origin is never overwritten by later pragmas. -/
theorem lineStamps_keeps_origin (o : ℚ) (ps : List (List Byte)) :
    (lineStamps (some o) ps).1 = some o := by
  induction ps with
  | nil => rfl
  | cons p rest ih =>
    simp only [lineStamps]
    match matchPragma (stripAnsi p) with
    | none => exact ih
    | some (a, b) => simpa using ih

/-- Escaping is the identity on character lists free of unsafe characters. -/
theorem quoteChars_id (attr : String → Option String) (l : List Char)
    (h : ∀ c ∈ l, isUnsafeChar c = false) : quoteChars attr l = .ok (String.mk l) := by
  induction l with
  | nil => rfl
  | cons c rest ih =>
    have hc : isUnsafeChar c = false := h c (List.mem_cons_self _ _)
    have hr := ih fun x hx => h x (List.mem_cons_of_mem _ hx)
    simp only [quoteChars, hc, hr, Bool.false_eq_true]
    rw [if_neg not_false]
    rfl

/-- Bind reduction on a successful `Except` value. -/
theorem exceptOkBind {ε α β : Type} (a : α) (f : α → Except ε β) :
    (Except.ok a : Except ε α) >>= f = f a := rfl

/-- Bind reduction on a failed `Except` value. -/
theorem exceptErrorBind {ε α β : Type} (e : ε) (f : α → Except ε β) :
    (Except.error e : Except ε α) >>= f = Except.error e := rfl

/-- Python `format(0, '05.2f')` renders as `00.00`. -/
theorem fmtF052Chars_zero : fmtF052Chars ((0 : ℤ) : ℚ) = ['0', '0', '.', '0', '0'] := by
  have h0 : round ((100 : ℚ) * ((0 : ℤ) : ℚ)) = 0 := by norm_num
  simp only [fmtF052Chars, h0]
  decide

/-- The style-free zero marker of line 170 renders as `00:00.00`. -/
theorem strFormat_blank :
    strFormat nsBlank tsTemplate [("m", FVal.vint 0), ("s", FVal.vint 0)] =
      Except.ok "00:00.00" := by
  have h1 : fmtVal (FVal.vint 0) FSpec.f052 = Except.ok "00.00" := by
    simp only [fmtVal, fmtF052Chars_zero]
  have h2 : fmtVal (FVal.vint 0) FSpec.d02 = Except.ok "00" := by decide
  simp [strFormat, tsTemplate, tokLookup, nsBlank, assocGet, h1, h2, exceptOkBind]

/-- The placeholder is the length-8 string of blanks. -/
theorem placeholder_eq : placeholder = "        " := by
  have hb : placeholderBase = "00:00.00" := by
    simp only [placeholderBase, strFormat_blank, Except.toOption, Option.getD]
  simp only [placeholder, hb]
  decide

/-- Rendering any timestamp marker through `lib.colors.format` with the
source's `_seq` raises `AttributeError: dim` (the template's first field). -/
theorem pyFormat_dim_error (m : ℤ) (s : ℚ) :
    pyFormat seqAttr tsTemplate [("m", FVal.vint m), ("s", FVal.vrat s)] =
      Except.error "AttributeError: dim" := by
  have hdim : seqAttr "dim" = none := by decide
  simp only [pyFormat, quoteEnv, tsTemplate, strFormat, tokLookup, hdim, exceptOkBind,
    exceptErrorBind]
  rfl

/-- The first C1 line splits into its pragma segment and the text `ok`. -/
theorem c1_split1 :
    pySplitCR (pyRstripCRLF c1Line1) =
      [bytesOfStr "travis_time:end:0a1b2c3d:start=1000000000,finish=2500000000,duration=1500000000",
        bytesOfStr "ok"] := by
  decide

/-- The second C1 line splits into its pragma segment and the text `done`. -/
theorem c1_split2 :
    pySplitCR (pyRstripCRLF c1Line2) =
      [bytesOfStr "travis_time:end:1f2e3d4c:start=2000000000,finish=4000000000,duration=2000000000",
        bytesOfStr "done"] := by
  decide

/-- The unmarked line splits into a single text segment. -/
theorem hello_split : pySplitCR (pyRstripCRLF helloLine) = [bytesOfStr "hello"] := by
  decide

/-- The first pragma parses to `start=1000000000, finish=2500000000`. -/
theorem c1_pragma1 :
    matchPragma (stripAnsi
      (bytesOfStr "travis_time:end:0a1b2c3d:start=1000000000,finish=2500000000,duration=1500000000")) =
      some (1000000000, 2500000000) := by
  decide

/-- The second pragma parses to `start=2000000000, finish=4000000000`. -/
theorem c1_pragma2 :
    matchPragma (stripAnsi
      (bytesOfStr "travis_time:end:1f2e3d4c:start=2000000000,finish=4000000000,duration=2000000000")) =
      some (2000000000, 4000000000) := by
  decide

/-- Timing scan of the first C1 line: the origin becomes 1.0 s (the pragma's
`start` in seconds) and the stamp is `divmod(1.5, 60) = (0, 1.5)`. -/
theorem c1_stamps_line1 :
    lineStamps none (pySplitCR (pyRstripCRLF c1Line1)).dropLast = (some 1, [(0, 3 / 2)]) := by
  rw [c1_split1]
  simp only [List.dropLast, lineStamps, c1_pragma1, Option.getD, divmod60]
  norm_num

/-- Timing scan of the second C1 line against the already-fixed origin 1.0 s:
the stamp is `divmod(4.0 - 1.0, 60) = (0, 3.0)`, not relative to this line's
own `start`. -/
theorem c1_stamps_line2 :
    lineStamps (some 1) (pySplitCR (pyRstripCRLF c1Line2)).dropLast = (some 1, [(0, 3)]) := by
  rw [c1_split2]
  simp only [List.dropLast, lineStamps, c1_pragma2, Option.getD, divmod60]
  norm_num

/-- Timing scan of the unmarked line: no pragmas, origin unchanged. -/
theorem hello_stamps (st : Option ℚ) :
    lineStamps st (pySplitCR (pyRstripCRLF helloLine)).dropLast = (st, []) := by
  rw [hello_split]
  rfl

/-- The style-free marker for the stamp `(0, 1.5)` is `00:01.50`. -/
theorem marker_0_150 : String.mk (markerChars 0 (3 / 2)) = "00:01.50" := by
  have h : round ((100 : ℚ) * (3 / 2)) = 150 := by
    rw [round_eq]
    norm_num [Int.floor_eq_iff]
  simp only [markerChars, fmtF052Chars, h]
  decide

/-- The style-free marker for the stamp `(0, 3.0)` is `00:03.00`. -/
theorem marker_0_300 : String.mk (markerChars 0 3) = "00:03.00" := by
  have h : round ((100 : ℚ) * 3) = 300 := by
    rw [round_eq]
    norm_num [Int.floor_eq_iff]
  simp only [markerChars, fmtF052Chars, h]
  decide

/-! ## Claim theorems -/

/-- Claim C2 (code bug): the spec says all nine style tokens (red, green,
yellow, cyan, bold, dim, off, reverse, unreverse) are available as
substitution values expanding to their ANSI escape codes.  The source's
`_seq` class provides exactly six of them; referencing `t.dim`, `t.reverse`
or `t.unreverse` — which the program itself does — raises `AttributeError`
instead of expanding. -/
theorem C2_styleTokens :
    pyFormat seqAttr [.tok "red"] [] = .ok "\x1B[31m" ∧
    pyFormat seqAttr [.tok "green"] [] = .ok "\x1B[32m" ∧
    pyFormat seqAttr [.tok "yellow"] [] = .ok "\x1B[33m" ∧
    pyFormat seqAttr [.tok "cyan"] [] = .ok "\x1B[36m" ∧
    pyFormat seqAttr [.tok "bold"] [] = .ok "\x1B[1m" ∧
    pyFormat seqAttr [.tok "off"] [] = .ok "\x1B[0m" ∧
    pyFormat seqAttr [.tok "dim"] [] = .error "AttributeError: dim" ∧
    pyFormat seqAttr [.tok "reverse"] [] = .error "AttributeError: reverse" ∧
    pyFormat seqAttr [.tok "unreverse"] [] = .error "AttributeError: unreverse" := by
  decide

/-- Claim C3 (code bug): escaping is the identity on control-free strings, as
claimed; but on every control character the source's escaping raises
`AttributeError: reverse` (the `_seq` class lacks `reverse`/`unreverse`)
instead of producing the claimed reverse-video markers.  Under the
spec-modelled nine-token style table (`seqFull`) the claimed markers do come
out: reversed tab, reversed `^` + (char XOR 0x40), reversed `<U+XXXX>`. -/
theorem C3_controlEscaping :
    (∀ s : String, (∀ c ∈ s.toList, isUnsafeChar c = false) → pyQuote seqAttr s = .ok s) ∧
    pyQuote seqAttr "\t" = .error "AttributeError: reverse" ∧
    pyQuote seqAttr "\x01" = .error "AttributeError: reverse" ∧
    pyQuote seqAttr "\x7F" = .error "AttributeError: reverse" ∧
    pyQuote seqAttr "\x80" = .error "AttributeError: reverse" ∧
    pyQuote seqFull "\t" = .ok "\x1B[7m\t\x1B[27m" ∧
    pyQuote seqFull "\x01" = .ok "\x1B[7m^A\x1B[27m" ∧
    pyQuote seqFull "\x7F" = .ok "\x1B[7m^?\x1B[27m" ∧
    pyQuote seqFull "\x80" = .ok "\x1B[7m<U+0080>\x1B[27m" := by
  refine ⟨fun s h => ?_, ?_, ?_, ?_, ?_, ?_, ?_, ?_, ?_⟩
  · obtain ⟨l⟩ := s
    exact quoteChars_id seqAttr l h
  all_goals decide

/-- Witness for C3's identity clause at the concrete control-free string
`hello`. -/
theorem C3_controlEscaping_witness : pyQuote seqAttr "hello" = .ok "hello" :=
  C3_controlEscaping.1 "hello" (by decide)

/-- Claim C4 (confirmed): collapsed mode renders every line as exactly the
last carriage-return-delimited segment of the line stripped of trailing CR/LF
bytes, followed by exactly one newline byte — the earlier segments are
discarded. -/
theorem C4_collapsedMode (l : List Byte) : collapseLine l = lastSegmentSpec l ++ [10] := by
  unfold collapseLine lastSegmentSpec
  by_cases h : 13 ∈ pyRstripCRLF l
  · obtain ⟨a, b, heq, hb⟩ := exists_last_13 _ h
    rw [heq, pyRsplitCR1_append13 a b hb, pySplitCR_append13, pySplitCR_no13 b hb,
      getLastD_append_singleton]
    rfl
  · rw [pyRsplitCR1_no13 _ h, pySplitCR_no13 _ h]

/-- Counterexample to claim C5 as stated: for the owner segment `github`, the
path `/github/x/other` is not rejected — the optional `github/` alias prefix
of every route pattern makes it parse as the bare project `x/other` and
dispatch to the branch-listing handler. -/
theorem C5_counterexample :
    routeSegs ["", "github", "x", "other"] = some (.branches "x/other") ∧
    routeOutcome ["", "github", "x", "other"] ≠ .usageError := by
  decide

/-- Claim C5 (corrected): for every valid owner/repo, `/owner/repo` and
`/owner/repo/branches` dispatch to the branch-listing handler with the same
captured project, `/owner/repo/builds/42` captures build id 42,
`/owner/repo/jobs/7` captures job id 7; and — provided the owner segment is
not the alias prefix `github` — `/owner/repo/other` matches no pattern and is
rejected as a usage error. -/
theorem C5_routing (o r : String) (ho : projSeg o = true) (hr : projSeg r = true) :
    routeSegs ["", o, r] = some (.branches (o ++ "/" ++ r)) ∧
    routeSegs ["", o, r, "branches"] = some (.branches (o ++ "/" ++ r)) ∧
    routeSegs ["", o, r, "builds", "42"] = some (.build (o ++ "/" ++ r) "42") ∧
    routeSegs ["", o, r, "jobs", "7"] = some (.job (o ++ "/" ++ r) "7") ∧
    (o ≠ "github" → routeOutcome ["", o, r, "other"] = .usageError) := by
  have h42 : digitSeg "42" = true := by decide
  have h7 : digitSeg "7" = true := by decide
  refine ⟨?_, ?_, ?_, ?_, fun hog => ?_⟩
  · simp [routeSegs, matchBranches, matchRoot, ho, hr]
  · simp [routeSegs, matchBranches, ho, hr]
  · simp [routeSegs, matchBranches, matchRoot, matchBuilds, ho, hr, h42]
  · simp [routeSegs, matchBranches, matchRoot, matchBuilds, matchJobs, ho, hr, h7]
  · simp [routeOutcome, routeSegs, matchBranches, matchRoot, matchBuilds, matchJobs,
      ho, hr, hog]

/-- Witness instantiating C5's routing facts at the concrete project
`owner/repo`. -/
theorem C5_routing_witness :
    routeSegs ["", "owner", "repo"] = some (.branches "owner/repo") ∧
    routeSegs ["", "owner", "repo", "builds", "42"] = some (.build "owner/repo" "42") ∧
    routeOutcome ["", "owner", "repo", "other"] = .usageError :=
  ⟨(C5_routing "owner" "repo" (by decide) (by decide)).1,
   (C5_routing "owner" "repo" (by decide) (by decide)).2.2.1,
   (C5_routing "owner" "repo" (by decide) (by decide)).2.2.2.2 (by decide)⟩

/-- Claim C7 (confirmed): with the URL argument `.`, a git lookup failing with
the known exit status 128 or a remote on a host other than `github.com` leads
to `urljoin` falling back to the base URL, whose path matches no route, so the
program reports a usage error and exits non-zero (status 2); a git failure
with any other exit status re-raises and propagates as fatal. -/
theorem C7_dotResolution :
    mainDot (.fails 128) = .ok .usageError ∧
    (∀ c : Nat, c ≠ 128 → mainDot (.fails c) = .error c) ∧
    (∀ sch nl p, nl ≠ "github.com" → mainDot (.output sch nl p) = .ok .usageError) ∧
    exitCodeOf .usageError ≠ 0 := by
  refine ⟨by decide, fun c hc => ?_, fun sch nl p hnl => ?_, by decide⟩
  · simp only [mainDot, get_git_url, if_neg hc]
  · simp only [mainDot, get_git_url, if_neg hnl]
    decide

/-- Witness for C7 at git exit status 1 and at a `gitlab.com` remote. -/
theorem C7_dotResolution_witness :
    mainDot (.fails 1) = .error 1 ∧
    mainDot (.output "https" "gitlab.com" "/a/b") = .ok .usageError :=
  ⟨C7_dotResolution.2.1 1 (by decide),
   C7_dotResolution.2.2.1 "https" "gitlab.com" "/a/b" (by decide)⟩

/-- Claim C8 (confirmed): in a paged session, a broken pipe from the pager
exiting early is caught and converted into `sys.exit(1)` (so the process
terminates with status 1 and the error does not propagate); and on every exit
path — normal completion, broken pipe, or any other exception — the stream is
closed, the pager is waited for, and the original stdout is restored. -/
theorem C8_autopager (body : BodyRes) :
    (∀ (tty : Bool) (cmd : String), (autopager tty cmd body).stdoutIsOriginal = true) ∧
    (∀ (tty : Bool) (cmd : String), tty = true → cmd ≠ "cat" →
      (autopager tty cmd body).closedStream = true ∧
      (autopager tty cmd body).waitedPager = true ∧
      (body = .raises .brokenPipe →
        (autopager tty cmd body).sysExit = some 1 ∧
        (autopager tty cmd body).propagated = none) ∧
      (∀ e, body = .raises (.other e) →
        (autopager tty cmd body).propagated = some (.other e) ∧
        (autopager tty cmd body).sysExit = none) ∧
      (body = .normal →
        (autopager tty cmd body).propagated = none ∧
        (autopager tty cmd body).sysExit = none)) := by
  constructor
  · intro tty cmd
    unfold autopager
    split <;> rfl
  · intro tty cmd htty hcmd
    rw [autopager.eq_def, if_neg (by simp [htty, hcmd])]
    refine ⟨rfl, rfl, fun hb => ?_, fun e hb => ?_, fun hb => ?_⟩ <;> subst hb <;>
      exact ⟨rfl, rfl⟩

/-- Witness for C8 at a tty with pager `less` and an early pager exit. -/
theorem C8_autopager_witness :
    (autopager true "less" (.raises .brokenPipe)).stdoutIsOriginal = true ∧
    (autopager true "less" (.raises .brokenPipe)).sysExit = some 1 ∧
    (autopager true "less" (.raises .brokenPipe)).propagated = none :=
  ⟨(C8_autopager (.raises .brokenPipe)).1 true "less",
   (((C8_autopager (.raises .brokenPipe)).2 true "less" rfl (by decide)).2.2.1 rfl).1,
   (((C8_autopager (.raises .brokenPipe)).2 true "less" rfl (by decide)).2.2.1 rfl).2⟩

/-- Claim C9 (confirmed): in a build matrix whose jobs all carry the same
value for a key (each job's config has distinct keys, as a Python dict does),
that key is omitted from every job's rendered config; a key whose non-nested
values differ between two jobs is rendered as `key=value` in every job that
carries it with a scalar value (keys starting with `.` and nested values
excluded). -/
theorem C9_configCollapsing (matrix : List Job)
    (hnd : ∀ j ∈ matrix, (j.config.map Prod.fst).Nodup) :
    (∀ (k : String) (v : PyVal), (∀ j ∈ matrix, pyGet j.config k = v) →
      ∀ job ∈ matrix, k ∉ (renderPairs matrix job).map Prod.fst) ∧
    (∀ (k : String) (j1 j2 : Job) (v1 v2 : PyVal), j1 ∈ matrix → j2 ∈ matrix →
      pyGet j1.config k = v1 → pyGet j2.config k = v2 → v1 ≠ v2 →
      isNested v1 = false → isNested v2 = false →
      ∀ job ∈ matrix, ∀ w : PyVal, pyGet job.config k = w → w ≠ .pnone →
        isNested w = false → startsWithDot k = false →
        (k ++ "=" ++ pyValStr w) ∈ renderConfigStrings matrix job) := by
  constructor
  · intro k v hall job hjob hmem
    obtain ⟨p, hp, hpk⟩ := List.mem_map.mp hmem
    obtain ⟨hpsort, hkeep⟩ := List.mem_filter.mp hp
    obtain ⟨pk, pv⟩ := p
    have hpk' : pk = k := hpk
    subst hpk'
    have hpcfg : (pk, pv) ∈ job.config := (mem_sortLE _ _ _).mp hpsort
    have hv : pyGet job.config pk = pv := pyGet_of_mem_nodup _ _ _ hpcfg (hnd job hjob)
    have hveq : pv = v := by rw [← hv, hall job hjob]
    subst hveq
    simp only [keepPair, Bool.and_eq_true, Bool.not_eq_true'] at hkeep
    obtain ⟨⟨hdot, hnest⟩, hcard⟩ := hkeep
    have hcoll : configColl matrix pk = {pv} :=
      configColl_all_eq matrix pk pv hall hnest (List.ne_nil_of_mem hjob)
    rw [hcoll] at hcard
    simp at hcard
  · intro k j1 j2 v1 v2 hj1 hj2 hv1 hv2 hne hn1 hn2 job hjob w hw hwn hwnest hdot
    have hmem : (k, w) ∈ job.config := pyGet_mem _ _ _ hw hwn
    have hsort : (k, w) ∈ sortLE (configSortLE matrix) job.config := (mem_sortLE _ _ _).mpr hmem
    have hcard : 1 < (configColl matrix k).card :=
      Finset.one_lt_card.mpr
        ⟨v1, configColl_mem _ _ _ _ hj1 hv1 hn1, v2, configColl_mem _ _ _ _ hj2 hv2 hn2, hne⟩
    have hcard' : (configColl matrix k).card ≠ 1 := by omega
    have hkeep : keepPair matrix (k, w) = true := by
      simp [keepPair, hdot, hwnest, hcard']
    exact List.mem_map.mpr ⟨(k, w), List.mem_filter.mpr ⟨hsort, hkeep⟩, rfl⟩

/-- Witness for C9 on the two-job fixture: `os` (constant `linux`) is omitted
from the first job's rendering while `env` (differing `A`/`B`) is rendered as
`env=A` there. -/
theorem C9_configCollapsing_witness :
    "os" ∉ (renderPairs c9Matrix c9Job1).map Prod.fst ∧
    "env=A" ∈ renderConfigStrings c9Matrix c9Job1 :=
  ⟨(C9_configCollapsing c9Matrix (by decide)).1 "os" (.pstr "linux") (by decide)
      c9Job1 (by decide),
   (C9_configCollapsing c9Matrix (by decide)).2 "env" c9Job1 c9Job2 (.pstr "A") (.pstr "B")
      (by decide) (by decide) (by decide) (by decide) (by decide) (by decide) (by decide)
      c9Job1 (by decide) (.pstr "A") (by decide) (by decide) (by decide) (by decide)⟩

/-- Claim C10 (confirmed): the blank placeholder is exactly eight spaces
(computed once from the template at zero minutes and seconds); for a
nonnegative elapsed time the marker's style-free text is eight columns wide
exactly while the elapsed time is under 6000 seconds (100 minutes), and from
6000 seconds on the marker is strictly wider than the placeholder, so the
column alignment guarantee no longer holds. -/
theorem C10_markerWidth :
    placeholder = "        " ∧
    (∀ t : ℚ, 0 ≤ t →
      ((t < 6000 → (markerChars (divmod60 t).1 (divmod60 t).2).length = 8) ∧
       (6000 ≤ t → placeholder.length < (markerChars (divmod60 t).1 (divmod60 t).2).length))) := by
  refine ⟨placeholder_eq, fun t ht => ?_⟩
  obtain ⟨hs0, hs60⟩ := divmod60_snd_bounds t
  have hsl : (fmtF052Chars (divmod60 t).2).length = 5 := fmtF052Chars_length _ hs0 hs60
  have hm0 : 0 ≤ (divmod60 t).1 := divmod60_fst_nonneg t ht
  constructor
  · intro h6
    have hml : (fmt02Chars (divmod60 t).1).length = 2 :=
      fmt02Chars_length_lt _ hm0 (divmod60_fst_lt t h6)
    simp [markerChars, hml, hsl]
  · intro h6
    have hml : 3 ≤ (fmt02Chars (divmod60 t).1).length :=
      fmt02Chars_length_ge _ (divmod60_fst_ge t h6)
    have hpl : placeholder.length = 8 := by rw [placeholder_eq]; decide
    simp only [markerChars, List.length_append, List.length_cons, hsl, hpl]
    omega

/-- Witness for C10 at the elapsed times 90 s (marker `01:30.00`, eight
columns) and 6000 s (marker `100:00.00`, wider than the placeholder). -/
theorem C10_markerWidth_witness :
    (markerChars (divmod60 90).1 (divmod60 90).2).length = 8 ∧
    placeholder.length < (markerChars (divmod60 6000).1 (divmod60 6000).2).length :=
  ⟨(C10_markerWidth.2 90 (by norm_num)).1 (by norm_num),
   (C10_markerWidth.2 6000 (by norm_num)).2 (by norm_num)⟩

/-- Claim C1 (code bug): the timing arithmetic of `print_ts_lines` fixes the
origin once, at the first pragma's `start` (1.0 s), and renders every later
pragma's elapsed time against that same origin — the style-free marker texts
for the claimed input are `00:01.50` and `00:03.00`, exactly as the claim
says, and an already-set origin is never overwritten.  But running the actual
code on that input raises `AttributeError: dim` at the very first marker
(the `_seq` class lacks `dim`), printing nothing. -/
theorem C1_timestampOrigin :
    printTsLinesRun c1Input = ([], some "AttributeError: dim") ∧
    tsMarkerTextsRun c1Input = [["00:01.50"], ["00:03.00"]] ∧
    (∀ (o : ℚ) (ps : List (List Byte)), (lineStamps (some o) ps).1 = some o) := by
  refine ⟨?_, ?_, lineStamps_keeps_origin⟩
  · simp [printTsLinesRun, c1Input, printTsLines, tsLine, c1_stamps_line1, renderStamps,
      pyFormat_dim_error]
  · simp [tsMarkerTextsRun, c1Input, tsMarkerTexts, c1_stamps_line1, c1_stamps_line2,
      marker_0_150, marker_0_300]

/-- Claim C6 (code bug): in timestamp mode an unmarked line is prefixed with
the blank placeholder (eight spaces) plus the trailing space, whose printed
width equals the style-free width of a rendered marker plus its trailing
space — the claimed alignment widths do match.  But on a stream that mixes
unmarked and marked lines the code prints the unmarked line and then raises
`AttributeError: dim` at the first marked line, so no aligned marked line is
ever printed. -/
theorem C6_placeholderAlignment :
    printTsLinesRun c6Input =
      ([.str (placeholder ++ " "), .bytes (bytesOfStr "hello"), .bytes [10]],
        some "AttributeError: dim") ∧
    placeholder = "        " ∧
    tsMarkerTextsRun c6Input = [[], ["00:01.50"]] ∧
    (placeholder ++ " " : String).length = ("00:01.50" ++ " " : String).length := by
  refine ⟨?_, placeholder_eq, ?_, ?_⟩
  · simp [printTsLinesRun, c6Input, printTsLines, tsLine, hello_stamps, hello_split,
      c1_stamps_line1, renderStamps, pyFormat_dim_error, lineStamps]
  · simp [tsMarkerTextsRun, c6Input, tsMarkerTexts, hello_stamps, c1_stamps_line1,
      marker_0_150]
  · rw [placeholder_eq]
    decide

end Trava
